import Mathlib

/-!
# Verification of the `boxing-arena` allocation pool

A shallow embedding of `src/lib.rs` (`BoxingArena<T>`).  The arena keeps a
`Vec<*mut T>` of free, uninitialized blocks.  We model a raw block pointer as a
natural-number address, the `Vec` as a `List Addr` in `Vec` order (the last
element of the list is the most recently pushed block, i.e. the one `Vec::pop`
removes), and the underlying allocator as a counter of fresh addresses starting
at 1 (address 0 plays the role of the null pointer).  An owned `Box<T>` handle
is an address together with the value stored at that address.
-/

namespace BoxingArena

/-- A raw block address (`*mut T`).  Address 0 models the null pointer. -/
abbrev Addr := Nat

/-- An owned heap handle (`Box<T>`): the block address it references and the
value currently stored in that block. -/
structure HBox (T : Type) where
  addr : Addr
  val  : T
  deriving DecidableEq, Repr

/-- The `BoxingArena<T>` state: `items` is the `Vec<*mut T>` free list in `Vec`
order, and `nextAddr` models the underlying allocator's supply of fresh
(non-null) block addresses. -/
structure Arena (T : Type) where
  items    : List Addr
  nextAddr : Addr
  deriving DecidableEq, Repr

/-- `BoxingArena::new`: `Self { items: vec![] }` — no allocation is made. -/
def new (T : Type) : Arena T :=
  { items := [], nextAddr := 1 }

/-- `BoxingArena::capacity`: `self.items.len()`. -/
def capacity (a : Arena T) : Nat :=
  a.items.length

/-- `BoxingArena::unbox`: take ownership of the box, read the value out of its
block, push the raw block onto the free list, and return the value. -/
def unbox (a : Arena T) (v : HBox T) : T × Arena T :=
  (v.val, { a with items := a.items ++ [v.addr] })

/-- `BoxingArena::rebox`: `self.items.pop()` — if the free list is empty,
`Box::new(v)` obtains a fresh block from the allocator; otherwise the value is
written into the popped (most recently pushed) block. -/
def rebox (a : Arena T) (v : T) : HBox T × Arena T :=
  match a.items.getLast? with
  | none     => (⟨a.nextAddr, v⟩, { a with nextAddr := a.nextAddr + 1 })
  | some raw => (⟨raw, v⟩, { a with items := a.items.dropLast })

/-- `BoxingArena::try_rebox`: if `*v` is `None` or the free list is empty,
return `None` leaving both the container and the arena untouched; otherwise pop
the most recently pushed block, relocate the contained value into it, write
`None` into the container, and return the handle.  The result triple is
(returned option, container after the call, arena after the call). -/
def try_rebox (a : Arena T) (v : Option T) :
    Option (HBox T) × Option T × Arena T :=
  match v, a.items.getLast? with
  | none, _ => (none, none, a)
  | some x, none => (none, some x, a)
  | some x, some raw => (some ⟨raw, x⟩, none, { a with items := a.items.dropLast })

/-- The first `while` loop of `BoxingArena::resize_capacity`:
`while size < n { self.items.pop(); dealloc; n -= 1 }` — pop (and release to
the allocator) the most recently pushed blocks until the length is at most
`size`. -/
def popUntil (l : List Addr) (size : Nat) : List Addr :=
  if size < l.length then popUntil l.dropLast size else l
  termination_by l.length
  decreasing_by simp only [List.length_dropLast]; omega

/-- The second `while` loop of `BoxingArena::resize_capacity`:
`while size > n { alloc; self.items.push(p); n += 1 }` — push freshly
allocated blocks until the length reaches `size`.  Returns the new free list
together with the allocator state. -/
def pushUntil (l : List Addr) (next : Addr) (size : Nat) : List Addr × Addr :=
  if l.length < size then pushUntil (l ++ [next]) (next + 1) size else (l, next)
  termination_by size - l.length
  decreasing_by simp only [List.length_append, List.length_cons, List.length_nil]; omega

/-- `BoxingArena::resize_capacity`: shrink by deallocating popped blocks, then
grow by pushing freshly allocated ones, until the free list has exactly `size`
blocks. -/
def resize_capacity (a : Arena T) (size : Nat) : Arena T :=
  let l1 := popUntil a.items size
  let p := pushUntil l1 a.nextAddr size
  { items := p.1, nextAddr := p.2 }

/-- `BoxingArena::with_capacity`: `BoxingArena::new()` followed by
`resize_capacity(size)`. -/
def with_capacity (T : Type) (size : Nat) : Arena T :=
  resize_capacity (new T) size

/-- `BoxingArena::trim`: `if self.items.len() > size { self.resize_capacity(size) }`. -/
def trim (a : Arena T) (size : Nat) : Arena T :=
  if size < a.items.length then resize_capacity a size else a

/-! ## The arena under a possibly failing allocator

`std::alloc::alloc` does not abort on exhaustion: it returns the null pointer.
To examine the growth loop of `resize_capacity` under allocator exhaustion we
refine the state with an oracle listing, for each successive raw allocation,
whether the allocator fails.  A failed allocation yields address 0 (null); a
successful one yields the next fresh address. -/

/-- Arena state together with the allocator-failure oracle: `failures.head`
tells whether the next call to `std::alloc::alloc` fails (returns null). -/
structure ArenaF (T : Type) where
  items    : List Addr
  nextAddr : Addr
  failures : List Bool
  deriving DecidableEq, Repr

/-- One call to `std::alloc::alloc`: returns the null address 0 when the
oracle says the allocation fails, and a fresh address otherwise. -/
def allocRaw (s : ArenaF T) : Addr × ArenaF T :=
  match s.failures with
  | true :: rest  => (0, { s with failures := rest })
  | false :: rest => (s.nextAddr, { s with nextAddr := s.nextAddr + 1, failures := rest })
  | []            => (s.nextAddr, { s with nextAddr := s.nextAddr + 1 })

/-- The growth loop of `resize_capacity` exactly as written in the source:
`let p = alloc(..); self.items.push(p as *mut T);` — the returned pointer is
pushed onto the free list with no null check. -/
def pushUntilF (s : ArenaF T) (size : Nat) : ArenaF T :=
  if s.items.length < size then
    let p := allocRaw s
    pushUntilF { p.2 with items := p.2.items ++ [p.1] } size
  else s
  termination_by size - s.items.length
  decreasing_by
    simp only [allocRaw]
    cases h : s.failures with
    | nil => simp only [List.length_append, List.length_cons, List.length_nil]; omega
    | cons b rest =>
        cases b <;>
          simp only [List.length_append, List.length_cons, List.length_nil] <;> omega

/-- `BoxingArena::resize_capacity` under the failing allocator: the shrink loop
deallocates popped blocks (deallocation cannot fail), then the growth loop
pushes whatever `std::alloc::alloc` returned. -/
def resize_capacityF (s : ArenaF T) (size : Nat) : ArenaF T :=
  pushUntilF { s with items := popUntil s.items size } size

/-! ## Sequences of unbox / rebox calls -/

/-- One client call: returning a handle to the pool (`unbox`) or boxing a
value (`rebox`). -/
inductive Op (T : Type) where
  | unbox (b : HBox T)
  | rebox (v : T)
  deriving DecidableEq, Repr

/-- Run a sequence of `unbox` / `rebox` calls against the arena, keeping only
the arena state. -/
def run (a : Arena T) : List (Op T) → Arena T
  | [] => a
  | Op.unbox b :: rest => run (unbox a b).2 rest
  | Op.rebox v :: rest => run (rebox a v).2 rest

/-- `true` when every `rebox` in the sequence finds a non-empty free list at
the state where it executes, i.e. every box call reuses a block. -/
def reuseOnly (a : Arena T) : List (Op T) → Bool
  | [] => true
  | Op.unbox b :: rest => reuseOnly (unbox a b).2 rest
  | Op.rebox v :: rest => !a.items.isEmpty && reuseOnly (rebox a v).2 rest

/-- Number of `unbox` calls in a sequence. -/
def countUnbox : List (Op T) → Nat
  | [] => 0
  | Op.unbox _ :: rest => countUnbox rest + 1
  | Op.rebox _ :: rest => countUnbox rest

/-- Number of `rebox` calls in a sequence. -/
def countRebox : List (Op T) → Nat
  | [] => 0
  | Op.unbox _ :: rest => countRebox rest
  | Op.rebox _ :: rest => countRebox rest + 1

/-! ## Helper lemmas about the resize loops -/

/-- The shrink loop does nothing when the free list is already small enough. -/
theorem popUntil_of_le (l : List Addr) (size : Nat) (h : l.length ≤ size) :
    popUntil l size = l := by
  unfold popUntil
  rw [if_neg (by omega)]

/-- The shrink loop keeps exactly the `size` oldest blocks when the free list
is too long. -/
theorem popUntil_eq_take (l : List Addr) (size : Nat) (h : size ≤ l.length) :
    popUntil l size = l.take size := by
  induction l, size using popUntil.induct with
  | case1 l size hlt ih =>
      rw [popUntil, if_pos hlt, ih (by simp only [List.length_dropLast]; omega),
        List.dropLast_eq_take, List.take_take]
      congr 1
      omega
  | case2 l size hge =>
      have heq : size = l.length := by omega
      rw [popUntil, if_neg hge, heq, List.take_length]

/-- The growth loop appends the run of fresh addresses handed out by the
allocator and advances the allocator by the number of blocks added. -/
theorem pushUntil_eq (l : List Addr) (next : Addr) (size : Nat) :
    pushUntil l next size =
      (l ++ List.range' next (size - l.length), next + (size - l.length)) := by
  induction l, next, size using pushUntil.induct with
  | case1 l next size hlt ih =>
      rw [pushUntil, if_pos hlt, ih]
      have h1 : size - l.length = (size - (l ++ [next]).length) + 1 := by
        simp only [List.length_append, List.length_cons, List.length_nil]
        omega
      rw [h1, List.range'_succ, List.append_assoc, Prod.mk.injEq]
      refine ⟨rfl, ?_⟩
      ring
  | case2 l next size hge =>
      rw [pushUntil, if_neg hge]
      have h0 : size - l.length = 0 := by omega
      simp [h0]

/-- `resize_capacity`, unfolded through both loops. -/
theorem resize_capacity_eq (a : Arena T) (size : Nat) :
    resize_capacity a size =
      { items := popUntil a.items size ++
          List.range' a.nextAddr (size - (popUntil a.items size).length),
        nextAddr := a.nextAddr + (size - (popUntil a.items size).length) } := by
  rw [resize_capacity]
  simp only [pushUntil_eq]

/-- The free-list length after the shrink loop is the minimum of the target
and the current length. -/
theorem popUntil_length (l : List Addr) (size : Nat) :
    (popUntil l size).length = min size l.length := by
  rcases le_total size l.length with h | h
  · rw [popUntil_eq_take l size h, List.length_take]
  · rw [popUntil_of_le l size h]
    omega

/-- `resize_capacity` always lands exactly on the requested capacity. -/
theorem capacity_resize_capacity (a : Arena T) (size : Nat) :
    capacity (resize_capacity a size) = size := by
  rw [resize_capacity_eq]
  simp only [capacity, List.length_append, List.length_range', popUntil_length]
  omega

/-- Resizing to the current capacity is the identity: neither loop runs, so no
block is allocated or deallocated. -/
theorem resize_capacity_of_eq (a : Arena T) (size : Nat) (h : capacity a = size) :
    resize_capacity a size = a := by
  rw [resize_capacity_eq, popUntil_of_le a.items size (le_of_eq h)]
  have h0 : size - a.items.length = 0 := by
    simp only [capacity] at h
    omega
  simp [h0]

/-- `rebox` on an empty free list takes the `Box::new` branch: a fresh block
from the allocator, free list untouched. -/
theorem rebox_nil (a : Arena T) (v : T) (h : a.items = []) :
    rebox a v = (⟨a.nextAddr, v⟩, { a with nextAddr := a.nextAddr + 1 }) := by
  simp [rebox, h]

/-- `rebox` on a non-empty free list pops the most recently pushed block and
writes the value into it. -/
theorem rebox_concat (a : Arena T) (v : T) (l : List Addr) (x : Addr)
    (h : a.items = l ++ [x]) :
    rebox a v = (⟨x, v⟩, { a with items := l }) := by
  simp [rebox, h, List.getLast?_concat, List.dropLast_concat]

/-- A reusing `rebox` shrinks the free list by exactly one block. -/
theorem capacity_rebox_of_ne_nil (a : Arena T) (v : T) (h : a.items ≠ []) :
    capacity (rebox a v).2 + 1 = capacity a := by
  rcases List.eq_nil_or_concat a.items with h0 | ⟨l, x, h0⟩
  · exact absurd h0 h
  · rw [List.concat_eq_append] at h0
    rw [rebox_concat a v l x h0]
    simp [capacity, h0]

/-- `unbox` grows the free list by exactly one block. -/
theorem capacity_unbox (a : Arena T) (b : HBox T) :
    capacity (unbox a b).2 = capacity a + 1 := by
  simp [capacity, unbox]

/-- Capacity accounting along any sequence in which every `rebox` reuses a
block: each `unbox` adds one and each `rebox` removes one. -/
theorem run_capacity (ops : List (Op T)) (a : Arena T)
    (h : reuseOnly a ops = true) :
    capacity (run a ops) + countRebox ops = capacity a + countUnbox ops := by
  induction ops generalizing a with
  | nil => simp [run, countRebox, countUnbox]
  | cons op rest ih =>
      cases op with
      | unbox b =>
          have h' : reuseOnly (unbox a b).2 rest = true := h
          have hrec := ih (unbox a b).2 h'
          simp only [run, countRebox, countUnbox, capacity_unbox] at hrec ⊢
          omega
      | rebox v =>
          rw [reuseOnly, Bool.and_eq_true] at h
          obtain ⟨h1, h2⟩ := h
          have hne : a.items ≠ [] := by
            simpa [List.isEmpty_iff] using h1
          have hcap := capacity_rebox_of_ne_nil a v hne
          have hrec := ih (rebox a v).2 h2
          simp only [run, countRebox, countUnbox] at hrec ⊢
          omega

/-! ## The claims -/

/-- C8: `new` produces a pool with `capacity() == 0` and performs no
allocation (the free list is empty and the allocator is untouched);
`with_capacity n` produces a pool with `capacity() == n`, pre-populated with
the `n` freshly allocated blocks handed out by the allocator. -/
theorem construction_spec (T : Type) (n : Nat) :
    capacity (new T) = 0 ∧ (new T).items = [] ∧ (new T).nextAddr = 1
    ∧ capacity (with_capacity T n) = n
    ∧ (with_capacity T n).items = List.range' 1 n := by
  refine ⟨rfl, rfl, rfl, capacity_resize_capacity (new T) n, ?_⟩
  rw [with_capacity, resize_capacity_eq]
  simp [new, popUntil_of_le ([] : List Addr) n (by simp)]

/-- C3: `resize_capacity n` always ends with `capacity() == n`; when the
current size is at least `n` it keeps exactly the `n` oldest blocks (the
excess most-recently-added ones are released), and when the current size is at
most `n` it appends exactly `n - capacity()` freshly allocated blocks. -/
theorem resize_capacity_spec (a : Arena T) (n : Nat) :
    capacity (resize_capacity a n) = n
    ∧ (n ≤ capacity a → (resize_capacity a n).items = a.items.take n)
    ∧ (capacity a ≤ n →
        (resize_capacity a n).items =
          a.items ++ List.range' a.nextAddr (n - capacity a)) := by
  refine ⟨capacity_resize_capacity a n, ?_, ?_⟩
  · intro h
    rw [resize_capacity_eq]
    have ht := popUntil_eq_take a.items n h
    simp only [ht, List.length_take]
    have h0 : n - min n a.items.length = 0 := by
      simp only [capacity] at h
      omega
    simp [h0]
  · intro h
    rw [resize_capacity_eq]
    rw [popUntil_of_le a.items n h]
    rfl

/-- Witness for C3 at a concrete pool and target where both side conditions
hold. -/
theorem resize_capacity_spec_witness :
    capacity (resize_capacity (⟨[3, 4], 7⟩ : Arena Nat) 2) = 2
    ∧ (resize_capacity (⟨[3, 4], 7⟩ : Arena Nat) 2).items = ([3, 4] : List Addr).take 2
    ∧ (resize_capacity (⟨[3, 4], 7⟩ : Arena Nat) 2).items =
        [3, 4] ++ List.range' 7 (2 - capacity (⟨[3, 4], 7⟩ : Arena Nat)) :=
  ⟨(resize_capacity_spec ⟨[3, 4], 7⟩ 2).1,
   (resize_capacity_spec ⟨[3, 4], 7⟩ 2).2.1 (by decide),
   (resize_capacity_spec ⟨[3, 4], 7⟩ 2).2.2 (by decide)⟩

/-- C6: `trim n` never increases `capacity()`; when `capacity() ≤ n` it is a
no-op (the whole state is unchanged); when `capacity() > n` it lands exactly
on `n`. -/
theorem trim_spec (a : Arena T) (n : Nat) :
    capacity (trim a n) ≤ capacity a
    ∧ (capacity a ≤ n → trim a n = a)
    ∧ (n < capacity a → capacity (trim a n) = n) := by
  refine ⟨?_, ?_, ?_⟩
  · rw [trim]
    by_cases h : n < a.items.length
    · rw [if_pos h, capacity_resize_capacity]
      simp only [capacity]
      omega
    · rw [if_neg h]
  · intro h
    rw [trim, if_neg (by simp only [capacity] at h; omega)]
  · intro h
    rw [trim, if_pos (by simp only [capacity] at h; omega), capacity_resize_capacity]

/-- Witness for C6: a no-op trim and a shrinking trim at concrete pools. -/
theorem trim_spec_witness :
    capacity (trim (⟨[3, 4], 7⟩ : Arena Nat) 1) ≤ capacity (⟨[3, 4], 7⟩ : Arena Nat)
    ∧ trim (⟨[3, 4], 7⟩ : Arena Nat) 5 = (⟨[3, 4], 7⟩ : Arena Nat)
    ∧ capacity (trim (⟨[3, 4], 7⟩ : Arena Nat) 1) = 1 :=
  ⟨(trim_spec ⟨[3, 4], 7⟩ 1).1,
   (trim_spec ⟨[3, 4], 7⟩ 5).2.1 (by decide),
   (trim_spec ⟨[3, 4], 7⟩ 1).2.2 (by decide)⟩

/-- C9: `resize_capacity` is idempotent — an immediate second call with the
same target leaves the whole state exactly as the first call left it (so no
allocation and no deallocation happens), and `resize_capacity (capacity())`
is the identity on any pool. -/
theorem resize_capacity_idem (a : Arena T) (n : Nat) :
    resize_capacity (resize_capacity a n) n = resize_capacity a n
    ∧ resize_capacity a (capacity a) = a :=
  ⟨resize_capacity_of_eq (resize_capacity a n) n (capacity_resize_capacity a n),
   resize_capacity_of_eq a (capacity a) rfl⟩

/-- C7: round-trip value preservation — unboxing the handle produced by
`rebox v` returns exactly `v`, on every pool state, whether the box reused a
free block or obtained a fresh one. -/
theorem rebox_unbox_roundtrip (a : Arena T) (v : T) :
    (unbox (rebox a v).2 (rebox a v).1).1 = v := by
  cases h : a.items.getLast? <;> simp [rebox, unbox, h]

/-- C5: LIFO reuse — after `rebox v` then `unbox` of the returned handle, the
next `rebox` hands back a handle at the very same block address; and in
general `rebox` on a non-empty free list reuses the most recently pushed
block. -/
theorem lifo_reuse (a : Arena T) (v w : T) :
    (rebox (unbox (rebox a v).2 (rebox a v).1).2 w).1.addr = (rebox a v).1.addr
    ∧ (a.items ≠ [] →
        a.items.getLast? = some ((rebox a v).1.addr)) := by
  constructor
  · have h2 : (unbox (rebox a v).2 (rebox a v).1).2.items =
        (rebox a v).2.items ++ [(rebox a v).1.addr] := rfl
    rw [rebox_concat (unbox (rebox a v).2 (rebox a v).1).2 w
      (rebox a v).2.items (rebox a v).1.addr h2]
  · intro h
    rcases List.eq_nil_or_concat a.items with h0 | ⟨l, x, h0⟩
    · exact absurd h0 h
    · rw [List.concat_eq_append] at h0
      rw [rebox_concat a v l x h0, h0, List.getLast?_concat]

/-- Witness for C5 at a concrete pool with a non-empty free list. -/
theorem lifo_reuse_witness :
    (rebox (unbox (rebox (⟨[4, 9], 1⟩ : Arena Nat) 0).2
        (rebox (⟨[4, 9], 1⟩ : Arena Nat) 0).1).2 1).1.addr =
      (rebox (⟨[4, 9], 1⟩ : Arena Nat) 0).1.addr
    ∧ ([4, 9] : List Addr).getLast? = some ((rebox (⟨[4, 9], 1⟩ : Arena Nat) 0).1.addr) :=
  ⟨(lifo_reuse ⟨[4, 9], 1⟩ 0 1).1, (lifo_reuse ⟨[4, 9], 1⟩ 0 1).2 (by decide)⟩

/-- C4: capacity accounting — along any interleaving of `unbox` calls and
block-reusing `rebox` calls, the final capacity plus the number of `rebox`
calls equals the initial capacity plus the number of `unbox` calls (so the
capacity is `c + k - m`, never negative); and a `rebox` on an empty free list
leaves the capacity at 0. -/
theorem capacity_accounting (a : Arena T) (ops : List (Op T))
    (h : reuseOnly a ops = true) :
    (capacity (run a ops) : ℤ) =
        (capacity a : ℤ) + countUnbox ops - countRebox ops
    ∧ ∀ (b : Arena T) (w : T), b.items = [] → capacity (rebox b w).2 = 0 := by
  constructor
  · have hn := run_capacity ops a h
    omega
  · intro b w hb
    rw [rebox_nil b w hb]
    simp [capacity, hb]

/-- Witness for C4: a concrete unbox-then-rebox sequence in which the rebox
reuses a block, and a rebox on a concrete empty pool. -/
theorem capacity_accounting_witness :
    reuseOnly (⟨[7], 1⟩ : Arena Nat) [Op.unbox ⟨9, 5⟩, Op.rebox 3] = true
    ∧ (capacity (run (⟨[7], 1⟩ : Arena Nat) [Op.unbox ⟨9, 5⟩, Op.rebox 3]) : ℤ) =
        (capacity (⟨[7], 1⟩ : Arena Nat) : ℤ)
          + countUnbox [Op.unbox (⟨9, 5⟩ : HBox Nat), Op.rebox 3]
          - countRebox [Op.unbox (⟨9, 5⟩ : HBox Nat), Op.rebox 3]
    ∧ capacity (rebox (⟨[], 1⟩ : Arena Nat) 5).2 = 0 :=
  ⟨by decide,
   (capacity_accounting (⟨[7], 1⟩ : Arena Nat) [Op.unbox ⟨9, 5⟩, Op.rebox 3] (by decide)).1,
   (capacity_accounting (⟨[7], 1⟩ : Arena Nat) [Op.unbox ⟨9, 5⟩, Op.rebox 3] (by decide)).2
     ⟨[], 1⟩ 5 rfl⟩

/-- C1: `try_rebox` returns `None` whenever the container is empty or
`capacity() == 0`, leaving the container and the pool exactly as they were;
and it returns a handle exactly when the container holds a value and
`capacity() > 0`, in which case the handle carries that value taken from the
most recently pushed block, the container becomes empty, and the capacity
drops by exactly one. -/
theorem try_rebox_spec (a : Arena T) (v : Option T) :
    ((v = none ∨ capacity a = 0) → try_rebox a v = (none, v, a))
    ∧ (∀ x, v = some x → 0 < capacity a →
        ∃ b : HBox T,
          try_rebox a v = (some b, none, { a with items := a.items.dropLast })
          ∧ b.val = x
          ∧ a.items.getLast? = some b.addr
          ∧ capacity (try_rebox a v).2.2 + 1 = capacity a) := by
  constructor
  · rintro (rfl | hc)
    · rfl
    · have h0 : a.items = [] := List.length_eq_zero.mp hc
      cases v with
      | none => rfl
      | some x => simp [try_rebox, h0]
  · rintro x rfl hc
    rcases List.eq_nil_or_concat a.items with h0 | ⟨l, y, h0⟩
    · rw [capacity, h0] at hc
      exact absurd hc (by simp)
    · rw [List.concat_eq_append] at h0
      have hm : try_rebox a (some x) =
          (some ⟨y, x⟩, none, { a with items := a.items.dropLast }) := by
        simp [try_rebox, h0, List.getLast?_concat]
      refine ⟨⟨y, x⟩, hm, rfl, ?_, ?_⟩
      · rw [h0, List.getLast?_concat]
      · rw [hm]
        simp only [capacity, List.length_dropLast]
        have : a.items.length ≠ 0 := by simp [h0]
        omega

/-- Witness for C1: both the refusing branch (`capacity() == 0`) and the
succeeding branch, at concrete pools. -/
theorem try_rebox_spec_witness :
    try_rebox (⟨[], 1⟩ : Arena Nat) (some 42) = (none, some 42, ⟨[], 1⟩)
    ∧ ∃ b : HBox Nat,
        try_rebox (⟨[5], 6⟩ : Arena Nat) (some 42) =
            (some b, none, { (⟨[5], 6⟩ : Arena Nat) with items := ([5] : List Addr).dropLast })
          ∧ b.val = 42
          ∧ ([5] : List Addr).getLast? = some b.addr
          ∧ capacity (try_rebox (⟨[5], 6⟩ : Arena Nat) (some 42)).2.2 + 1 =
              capacity (⟨[5], 6⟩ : Arena Nat) :=
  ⟨(try_rebox_spec (⟨[], 1⟩ : Arena Nat) (some 42)).1 (Or.inr rfl),
   (try_rebox_spec (⟨[5], 6⟩ : Arena Nat) (some 42)).2 42 rfl (by decide)⟩

/-- C2 exhibit: when the single raw allocation requested by
`resize_capacity 1` on an empty pool fails, `std::alloc::alloc` returns null
and the source pushes it with no check — the call returns normally with the
null address 0 recorded as a free block, instead of terminating the
program. -/
theorem resize_alloc_failure_null_block :
    (resize_capacityF (⟨[], 1, [true]⟩ : ArenaF Nat) 1).items = [0] := by
  rw [resize_capacityF, popUntil_of_le ([] : List Addr) 1 (by simp)]
  rw [pushUntilF]
  norm_num [allocRaw]
  rw [pushUntilF]
  norm_num

end BoxingArena
